/-
  Verification of the event-processing core of the
  `real-time-event-processing` repository (TypeScript).

  Shallow embedding: each TypeScript class is translated into Lean
  definitions over explicit state records.  Machine-level `number`
  fields that only ever hold non-negative integers in the modelled
  executions (counters, sizes, millisecond delays, attempt counts)
  are modelled as `Nat`.  Async functions that can reject are embedded
  as `Except`-returning functions; async functions whose every internal
  await is wrapped in try/catch are total.  Every `logger.*` call site
  that the specification refers to is recorded as a structured entry in
  an explicit log trace, and every `strategy.process` /
  `observer.handleEvent` / `sendToDeadLetterQueue` call is recorded in
  an explicit call trace, so that "X is invoked / logged" claims are
  statements about these traces.
-/
import Mathlib

namespace EventProcessing

/-! ## Data model: `DomainEvent`
    From `src/shared/domain/events/DomainEvent` (unnamed/part_006):
    eventId, eventType, aggregateId, occurredOn, version, data.
    `eventId` is the string value of the `EventId` value object;
    `occurredOn` (a `Date`) is modelled as a `Nat` timestamp; the open
    `data` record is modelled as an association list of strings. -/
structure Event where
  eventId : String
  eventType : String
  aggregateId : String
  occurredOn : Nat
  version : Nat
  data : List (String × String)
deriving DecidableEq, Repr

/-! ## BatchProcessor
    From `src/src/shared/infrastructure/batch/BatchProcessor.ts`. -/

/-- A processing strategy (`ProcessingStrategy` interface):
    `process(event)` is an async function that may reject, embedded as
    `Event → Except String Unit` (the `String` is the error message). -/
structure ProcessingStrategy where
  name : String
  process : Event → Except String Unit

/-- `BatchProcessorConfig`. -/
structure BPConfig where
  batchSize : Nat
  batchIntervalMs : Nat
  maxWaitTimeMs : Nat
deriving DecidableEq, Repr

/-- Structured log entries, one constructor per `logger.*` call site of
    `BatchProcessor` that the specification mentions. -/
inductive BPLog where
  /-- `logger.warn('Rejecting event - BatchProcessor is shutting down', …)` -/
  | rejectShuttingDown (eventType eventId : String)
  /-- `logger.info('📦 Event added to batch', …)` -/
  | eventAdded (eventType eventId : String) (batchLen : Nat)
  /-- `logger.info('🚀 Batch size limit reached, processing immediately')` -/
  | sizeLimitReached
  /-- `logger.debug('No events in batch to process')` -/
  | emptyBatchDebug
  /-- `logger.info('🔄 Processing batch #…', …)` -/
  | processingBatch (batchId batchLen : Nat)
  /-- `logger.warn('No strategy found for event type: …', …)` -/
  | noStrategyWarn (eventType eventId : String)
  /-- `logger.debug('✅ Event processed successfully', …)` -/
  | eventProcessed (eventType eventId : String)
  /-- `logger.error('❌ Failed to process event', …)` -/
  | eventFailed (eventType eventId errMsg : String)
  /-- `logger.info('✅ Batch #… processing completed', …)` -/
  | batchCompleted (batchId : Nat)
  /-- `logger.info('🛑 BatchProcessor shutdown initiated')` -/
  | shutdownInitiated
  /-- `logger.info('Processing … remaining events before shutdown')` -/
  | processingRemaining (n : Nat)
  /-- `logger.info('BatchProcessor shutdown completed', …)` -/
  | shutdownCompleted
deriving DecidableEq, Repr

/-- The mutable fields of a `BatchProcessor` instance, plus two
    observation traces: `strategyCalls` records each `strategy.process(event)`
    invocation (in invocation order) and `flushedBatches` records the
    `currentBatch` of each non-empty `processBatch` run (in flush order).
    The timer handle `batchTimer` is modelled by whether an armed timer
    is pending (`timerActive`). -/
structure BPState where
  strategies : String → Option ProcessingStrategy
  eventBatch : List Event
  timerActive : Bool
  isShuttingDown : Bool
  processedCount : Nat
  batchCount : Nat
  errorCount : Nat
  successCount : Nat
  strategyCalls : List Event
  flushedBatches : List (List Event)
  log : List BPLog

/-- State after the constructor ran: empty batch, no strategies, timer
    armed by `startBatchTimer()`, all counters zero. -/
def initBP : BPState :=
  { strategies := fun _ => none
    eventBatch := []
    timerActive := true
    isShuttingDown := false
    processedCount := 0
    batchCount := 0
    errorCount := 0
    successCount := 0
    strategyCalls := []
    flushedBatches := []
    log := [] }

/-- `registerStrategy(eventType, strategy)`: `Map.set`, last write wins. -/
def registerStrategy (st : BPState) (eventType : String)
    (strat : ProcessingStrategy) : BPState :=
  { st with strategies := fun t =>
      if t = eventType then some strat else st.strategies t }

/-- One iteration of the `currentBatch.map(async (event) => …)` callback
    in `processBatch` (BatchProcessor.ts lines 98-138).  The callback
    body is one big try/catch: a missing strategy increments
    `errorCount` and logs a warning; otherwise `strategy.process(event)`
    is awaited (recorded in `strategyCalls`), success increments
    `successCount` and `processedCount`, and a rejection is caught by
    the `catch (error)` branch, incrementing `errorCount` and logging.
    The per-event updates commute, so the `Promise.all` over the mapped
    callbacks is modelled as a left fold over the batch in order. -/
def processOneEvent (st : BPState) (e : Event) : BPState :=
  match st.strategies e.eventType with
  | none =>
      { st with
          errorCount := st.errorCount + 1
          log := st.log ++ [BPLog.noStrategyWarn e.eventType e.eventId] }
  | some strat =>
      let st1 := { st with strategyCalls := st.strategyCalls ++ [e] }
      match strat.process e with
      | Except.ok _ =>
          { st1 with
              successCount := st1.successCount + 1
              processedCount := st1.processedCount + 1
              log := st1.log ++ [BPLog.eventProcessed e.eventType e.eventId] }
      | Except.error msg =>
          { st1 with
              errorCount := st1.errorCount + 1
              log := st1.log ++ [BPLog.eventFailed e.eventType e.eventId msg] }

/-- `startBatchTimer()`: clears any pending timer and re-arms it unless
    the processor is shutting down. -/
def startBatchTimer (st : BPState) : BPState :=
  if st.isShuttingDown then { st with timerActive := false }
  else { st with timerActive := true }

/-- `processBatch()` (BatchProcessor.ts lines 76-158).  Empty batch:
    debug log and return.  Otherwise the batch is snapshotted into
    `currentBatch`, the buffer is emptied *before* any processing,
    `batchCount` is incremented, every event is run through the
    per-event callback (each callback catches its own errors, so the
    awaited `Promise.all` never rejects and this function is total),
    and the timer is restarted. -/
def processBatch (st : BPState) : BPState :=
  if st.eventBatch.isEmpty then
    { st with log := st.log ++ [BPLog.emptyBatchDebug] }
  else
    let currentBatch := st.eventBatch
    let st1 := { st with
        eventBatch := []
        batchCount := st.batchCount + 1
        flushedBatches := st.flushedBatches ++ [currentBatch]
        log := st.log ++ [BPLog.processingBatch (st.batchCount + 1) currentBatch.length] }
    let st2 := currentBatch.foldl processOneEvent st1
    let st3 := { st2 with log := st2.log ++ [BPLog.batchCompleted st1.batchCount] }
    startBatchTimer st3

/-- The state update performed by `addEvent(event)` (BatchProcessor.ts
    lines 50-74): during shutdown the event is rejected with a warning
    and nothing else changes; otherwise the event is pushed and, when
    the buffer has reached `config.batchSize`, the batch is processed
    immediately. -/
def addEventCore (cfg : BPConfig) (st : BPState) (e : Event) : BPState :=
  if st.isShuttingDown then
    { st with log := st.log ++ [BPLog.rejectShuttingDown e.eventType e.eventId] }
  else
    let st1 := { st with
        eventBatch := st.eventBatch ++ [e]
        log := st.log ++ [BPLog.eventAdded e.eventType e.eventId (st.eventBatch.length + 1)] }
    if cfg.batchSize ≤ st1.eventBatch.length then
      processBatch { st1 with log := st1.log ++ [BPLog.sizeLimitReached] }
    else st1

/-- The settlement of the promise returned by `addEvent`: `addEvent`'s
    own body never throws, and its only awaited call is `processBatch`,
    which is total because every throwing operation inside it sits
    under the per-event try/catch — so the promise always fulfills. -/
def addEvent (cfg : BPConfig) (st : BPState) (e : Event) :
    Except String BPState :=
  Except.ok (addEventCore cfg st e)

/-- Submitting a sequence of events one at a time (each `await`ed). -/
def runAdds (cfg : BPConfig) (st : BPState) : List Event → BPState
  | [] => st
  | e :: rest => runAdds cfg (addEventCore cfg st e) rest

/-- `shutdown()` (BatchProcessor.ts lines 184-208): set the flag, clear
    the timer, flush the remaining events if any, log completion. -/
def shutdown (st : BPState) : BPState :=
  let st1 := { st with
      isShuttingDown := true
      timerActive := false
      log := st.log ++ [BPLog.shutdownInitiated] }
  let st2 :=
    if st1.eventBatch.isEmpty then st1
    else processBatch
      { st1 with log := st1.log ++ [BPLog.processingRemaining st1.eventBatch.length] }
  { st2 with log := st2.log ++ [BPLog.shutdownCompleted] }

/-- `getSuccessRate()`: `successCount / (successCount + errorCount) * 100`.
    With both counters zero the JavaScript expression is `0/0 = NaN`,
    modelled as `none`. -/
def getSuccessRate (st : BPState) : Option ℚ :=
  if st.successCount + st.errorCount = 0 then none
  else some ((st.successCount : ℚ) / ((st.successCount : ℚ) + (st.errorCount : ℚ)) * 100)

/-! ## RetryMechanism
    From `src/src/shared/infrastructure/retry/RetryMechanism.ts`
    (the variant with dead-letter support, lines 63-164 of the file,
    which is the one the DLQ-aware call sites use). -/

/-- `RetryConfig`.  The numeric fields are modelled as `Nat`
    (millisecond delays, attempt counts and the backoff factor are
    non-negative integers in every configuration the repository uses). -/
structure RetryConfig where
  maxAttempts : Nat
  initialDelayMs : Nat
  maxDelayMs : Nat
  backoffFactor : Nat
deriving DecidableEq, Repr

/-- A dead-letter sink: `sendToDeadLetterQueue(event, error, retryCount)`,
    an async call that may itself reject. -/
def DLQService : Type :=
  Event → String → Nat → Except String Unit

/-- Structured log entries for the `logger.*` call sites of
    `executeWithRetry`. -/
inductive RetryLog where
  /-- `logger.warn('⚠️ Operation failed on attempt …', …)` -/
  | attemptFailed (attempt : Nat) (errMsg : String)
  /-- `logger.error('❌ Operation failed after … attempts - sending to DLQ', …)` -/
  | exhausted (attempt : Nat) (errMsg : String)
  /-- `logger.info('📮 Event sent to Dead Letter Queue', …)` -/
  | dlqSent (eventId : String) (retryCount : Nat)
  /-- `logger.error('❌ Failed to send event to DLQ', …)` -/
  | dlqFailed (eventId : String) (dlqErrMsg : String)
  /-- `logger.info('⏳ Waiting …ms before retry …', …)` -/
  | waiting (delayMs nextAttempt : Nat)
deriving DecidableEq, Repr

/-- Observable outcome of one `executeWithRetry` invocation.
    `result`'s error carries `Option String` because with
    `maxAttempts = 0` the `for` loop never runs and the source throws
    `lastError`, still `null` (`Except.error none`); every real throw of
    an `Error` with message `m` is `Except.error (some m)`.
    `attempts` counts invocations of `operation`; `waits` lists the
    awaited inter-attempt delays in order; `dlqCalls` lists the
    `sendToDeadLetterQueue` invocations with their arguments. -/
structure RetryOut (α : Type) where
  result : Except (Option String) α
  attempts : Nat
  waits : List Nat
  dlqCalls : List (Event × String × Nat)
  log : List RetryLog

/-- The `for (let attempt = 1; attempt <= maxAttempts; attempt++)` loop
    of `executeWithRetry`, with `fuel = maxAttempts + 1 - attempt`
    remaining iterations.  `op n` is the settlement of `operation()` on
    the n-th invocation.  `fuel = 0` is loop exit: `throw lastError`. -/
def retryLoop {α : Type} (cfg : RetryConfig) (svc : Option DLQService)
    (event : Option Event) (op : Nat → Except String α) :
    Nat → Nat → Nat → Option String → RetryOut α
  | 0, _attempt, _delay, lastError =>
      { result := Except.error lastError
        attempts := 0, waits := [], dlqCalls := [], log := [] }
  | fuel + 1, attempt, delay, _lastError =>
      match op attempt with
      | Except.ok v =>
          { result := Except.ok v
            attempts := 1, waits := [], dlqCalls := [], log := [] }
      | Except.error err =>
          if attempt = cfg.maxAttempts then
            -- final attempt: log, escalate to the DLQ if configured,
            -- then re-throw the original error either way
            let dlqCalls :=
              match event, svc with
              | some e, some _ => [(e, err, attempt)]
              | _, _ => []
            let dlqLog :=
              match event, svc with
              | some e, some s =>
                  match s e err attempt with
                  | Except.ok _ => [RetryLog.dlqSent e.eventId attempt]
                  | Except.error dlqErr => [RetryLog.dlqFailed e.eventId dlqErr]
              | _, _ => []
            { result := Except.error (some err)
              attempts := 1, waits := [], dlqCalls := dlqCalls
              log := [RetryLog.attemptFailed attempt err,
                      RetryLog.exhausted attempt err] ++ dlqLog }
          else
            let rest := retryLoop cfg svc event op fuel (attempt + 1)
              (min (delay * cfg.backoffFactor) cfg.maxDelayMs) (some err)
            { result := rest.result
              attempts := 1 + rest.attempts
              waits := delay :: rest.waits
              dlqCalls := rest.dlqCalls
              log := [RetryLog.attemptFailed attempt err,
                      RetryLog.waiting delay (attempt + 1)] ++ rest.log }

/-- `executeWithRetry(operation, context, event?)`. -/
def executeWithRetry {α : Type} (cfg : RetryConfig) (svc : Option DLQService)
    (event : Option Event) (op : Nat → Except String α) : RetryOut α :=
  retryLoop cfg svc event op cfg.maxAttempts 1 cfg.initialDelayMs none

/-! ## Observer fan-out
    From `EventProcessingSubject` (unnamed/part_009, the implementation
    the dependency container wires into the pipeline). -/

/-- An `EventObserver`: `handleEvent` is async and may reject. -/
structure EventObserver where
  name : String
  isInterestedIn : String → Bool
  handleEvent : Event → Except String Unit

/-- Structured log entries for `notifyObservers`. -/
inductive ObsLog where
  /-- `logger.info('Notifying … observers for event: …', …)` -/
  | notifying (count : Nat) (eventType eventId : String)
  /-- `logger.error('Observer … failed to handle event', …)` inside the
      per-observer `.catch` wrapper -/
  | observerFailed (observerName eventId errMsg : String)
deriving DecidableEq, Repr

/-- Observable outcome of one `notifyObservers` call: the names of the
    observers whose `handleEvent` was invoked (in list order) and each
    one's settlement (`none` = fulfilled, `some m` = rejected with
    message `m`). -/
structure NotifyOut where
  invoked : List String
  settled : List (String × Option String)
  log : List ObsLog
deriving DecidableEq, Repr

/-- `EventProcessingSubject.notifyObservers(event)` (part_009 lines
    67-93): filter the observers by interest in `event.eventType`;
    with none interested, return immediately.  Otherwise every
    interested observer's `handleEvent` is started (in parallel; each
    wrapped in a `.catch` that logs the error and re-throws) and the
    call awaits `Promise.allSettled`, which collects every settlement
    and never rejects — so the returned promise always fulfills, which
    the `Except.ok` result records. -/
def notifyObservers (observers : List EventObserver) (e : Event) :
    Except String NotifyOut :=
  let interested := observers.filter (fun o => o.isInterestedIn e.eventType)
  if interested.isEmpty then
    Except.ok { invoked := [], settled := [], log := [] }
  else
    let results := interested.map (fun o =>
      match o.handleEvent e with
      | Except.ok _ => (o.name, (none : Option String))
      | Except.error msg => (o.name, some msg))
    Except.ok
      { invoked := interested.map (fun o => o.name)
        settled := results
        log := ObsLog.notifying interested.length e.eventType e.eventId ::
          results.filterMap (fun r =>
            match r.2 with
            | some msg => some (ObsLog.observerFailed r.1 e.eventId msg)
            | none => none) }

/-! ## EventId validation and RetryableMessageHandler
    From `src/src/shared/domain/value-objects/EventId.ts` and the
    `RetryableMessageHandler` part of
    `src/src/shared/infrastructure/messaging/ICompositeMessageHandler.ts`
    (lines 652-732). -/

/-- A character matched by `[0-9a-f]` under the `/i` flag. -/
def isHexChar (c : Char) : Bool :=
  (decide ('0' ≤ c) && decide (c ≤ '9')) ||
  (decide ('a' ≤ c) && decide (c ≤ 'f')) ||
  (decide ('A' ≤ c) && decide (c ≤ 'F'))

/-- Consume exactly `n` hex characters. -/
def hexRun : Nat → List Char → Option (List Char)
  | 0, cs => some cs
  | _ + 1, [] => none
  | n + 1, c :: cs => if isHexChar c then hexRun n cs else none

/-- Consume a literal dash. -/
def expectDash : List Char → Option (List Char)
  | c :: cs => if c = '-' then some cs else none
  | [] => none

/-- Consume a character matched by `[1-5]`. -/
def expectVersion : List Char → Option (List Char)
  | c :: cs => if decide ('1' ≤ c) && decide (c ≤ '5') then some cs else none
  | [] => none

/-- Consume a character matched by `[89ab]` under the `/i` flag. -/
def expectVariant : List Char → Option (List Char)
  | c :: cs =>
      if c = '8' || c = '9' || c = 'a' || c = 'b' || c = 'A' || c = 'B' then
        some cs
      else none
  | [] => none

/-- `EventId.validate`'s test of
    `/^[0-9a-f]{8}-[0-9a-f]{4}-[1-5][0-9a-f]{3}-[89ab][0-9a-f]{3}-[0-9a-f]{12}$/i`
    against the whole string. -/
def uuidRegexTest (s : String) : Bool :=
  (((((((((((hexRun 8 s.data).bind expectDash).bind (hexRun 4)).bind
    expectDash).bind expectVersion).bind (hexRun 3)).bind
    expectDash).bind expectVariant).bind (hexRun 3)).bind
    expectDash).bind (hexRun 12)).elim false List.isEmpty

/-- `new EventId(value)` with an explicit value: the constructor
    validates and throws `'Invalid EventId format'` when the regex does
    not match; on success the `EventId`'s string value is the input. -/
def EventId.create (s : String) : Except String String :=
  if uuidRegexTest s then Except.ok s
  else Except.error "Invalid EventId format"

/-- A raw wire message as consumed by `RetryableMessageHandler.handle`.
    Absent JSON fields are `none`.  `occurredOn` (a date string on the
    wire) is modelled as a `Nat` timestamp, and `data` as an
    association list. -/
structure RawMessage where
  eventId : Option String
  eventType : Option String
  aggregateId : Option String
  version : Option Nat
  occurredOn : Option Nat
  data : Option (List (String × String))
deriving DecidableEq, Repr

/-- JavaScript string truthiness (`x || d`, `x ? a : b`): an absent
    field or empty string takes the default. -/
def strOrDefault (x : Option String) (d : String) : String :=
  match x with
  | some s => if s = "" then d else s
  | none => d

/-- JavaScript number truthiness for `message.version || 1`: absent or
    `0` takes the default `1`. -/
def versionOrDefault (x : Option Nat) : Nat :=
  match x with
  | some v => if v = 0 then 1 else v
  | none => 1

/-- `RetryableMessageHandler.convertToDomainEvent(message)`:
    `message.eventId ? new EventId(message.eventId) : new EventId()`,
    with defaults for the other fields.  `freshId` stands for the
    `uuidv4()` value a no-argument `new EventId()` would generate (the
    generated id is itself validated by the constructor), `now` for
    `new Date()`.  The `message.data || message` fallback embeds the
    raw message itself as the payload; no claim inspects the payload,
    so the fallback is modelled as the empty record. -/
def convertToDomainEvent (freshId : String) (now : Nat) (m : RawMessage) :
    Except String Event := do
  let eid ← match m.eventId with
    | some s => if s = "" then EventId.create freshId else EventId.create s
    | none => EventId.create freshId
  pure
    { eventId := eid
      eventType := strOrDefault m.eventType "UnknownEvent"
      aggregateId := strOrDefault m.aggregateId "unknown"
      occurredOn := m.occurredOn.getD now
      version := versionOrDefault m.version
      data := m.data.getD [] }

/-- Observable outcome of one `RetryableMessageHandler.handle` call:
    the conversion outcome plus the retry-engine observations (zeroed
    when conversion threw before `executeWithRetry` was entered). -/
structure HandleOut where
  conversion : Except String Event
  attempts : Nat
  waits : List Nat
  dlqCalls : List (Event × String × Nat)
  result : Except (Option String) Unit

/-- `RetryableMessageHandler.handle(message)` (ICompositeMessageHandler.ts
    lines 678-718): convert the raw message — a conversion throw
    happens *before* the `try` block and propagates directly — then run
    the base handler under `executeWithRetry`, re-throwing its terminal
    error.  `base ev n` is the settlement of
    `baseHandler.handle(domainEvent)` on the n-th attempt. -/
def RetryableHandle (cfg : RetryConfig) (svc : Option DLQService)
    (base : Event → Nat → Except String Unit)
    (freshId : String) (now : Nat) (m : RawMessage) : HandleOut :=
  match convertToDomainEvent freshId now m with
  | Except.error msg =>
      { conversion := Except.error msg
        attempts := 0, waits := [], dlqCalls := []
        result := Except.error (some msg) }
  | Except.ok ev =>
      let out := executeWithRetry cfg svc (some ev) (base ev)
      { conversion := Except.ok ev
        attempts := out.attempts
        waits := out.waits
        dlqCalls := out.dlqCalls
        result := out.result }

/-! ## Lemmas about the per-event flush callback and its fold -/

/-- The single log entry the per-event callback produces for `e`. -/
def eventLogEntry (strategies : String → Option ProcessingStrategy)
    (e : Event) : BPLog :=
  match strategies e.eventType with
  | none => BPLog.noStrategyWarn e.eventType e.eventId
  | some strat =>
      match strat.process e with
      | Except.ok _ => BPLog.eventProcessed e.eventType e.eventId
      | Except.error msg => BPLog.eventFailed e.eventType e.eventId msg

theorem processOneEvent_strategies (st : BPState) (e : Event) :
    (processOneEvent st e).strategies = st.strategies := by
  unfold processOneEvent
  split
  · rfl
  · split <;> rfl

theorem processOneEvent_eventBatch (st : BPState) (e : Event) :
    (processOneEvent st e).eventBatch = st.eventBatch := by
  unfold processOneEvent
  split
  · rfl
  · split <;> rfl

theorem processOneEvent_flushedBatches (st : BPState) (e : Event) :
    (processOneEvent st e).flushedBatches = st.flushedBatches := by
  unfold processOneEvent
  split
  · rfl
  · split <;> rfl

theorem processOneEvent_isShuttingDown (st : BPState) (e : Event) :
    (processOneEvent st e).isShuttingDown = st.isShuttingDown := by
  unfold processOneEvent
  split
  · rfl
  · split <;> rfl

theorem processOneEvent_batchCount (st : BPState) (e : Event) :
    (processOneEvent st e).batchCount = st.batchCount := by
  unfold processOneEvent
  split
  · rfl
  · split <;> rfl

theorem processOneEvent_strategyCalls (st : BPState) (e : Event) :
    (processOneEvent st e).strategyCalls =
      st.strategyCalls ++ (if (st.strategies e.eventType).isSome then [e] else []) := by
  unfold processOneEvent
  split
  · simp_all
  · split <;> simp_all

theorem processOneEvent_log (st : BPState) (e : Event) :
    (processOneEvent st e).log = st.log ++ [eventLogEntry st.strategies e] := by
  unfold processOneEvent eventLogEntry
  split
  · simp_all
  · split <;> simp_all

theorem processOneEvent_counts (st : BPState) (e : Event) :
    (processOneEvent st e).successCount + (processOneEvent st e).errorCount =
      st.successCount + st.errorCount + 1 := by
  unfold processOneEvent
  split
  · simp
    omega
  · split <;> simp <;> omega

theorem processOneEvent_processed_success (st : BPState) (e : Event) :
    (processOneEvent st e).processedCount + st.successCount =
      (processOneEvent st e).successCount + st.processedCount := by
  unfold processOneEvent
  split
  · simp
    omega
  · split <;> simp <;> omega

theorem procFold_strategies :
    ∀ (l : List Event) (st : BPState),
      (l.foldl processOneEvent st).strategies = st.strategies
  | [], _ => rfl
  | e :: l, st => by
      rw [List.foldl_cons, procFold_strategies l, processOneEvent_strategies]

theorem procFold_eventBatch :
    ∀ (l : List Event) (st : BPState),
      (l.foldl processOneEvent st).eventBatch = st.eventBatch
  | [], _ => rfl
  | e :: l, st => by
      rw [List.foldl_cons, procFold_eventBatch l, processOneEvent_eventBatch]

theorem procFold_flushedBatches :
    ∀ (l : List Event) (st : BPState),
      (l.foldl processOneEvent st).flushedBatches = st.flushedBatches
  | [], _ => rfl
  | e :: l, st => by
      rw [List.foldl_cons, procFold_flushedBatches l, processOneEvent_flushedBatches]

theorem procFold_isShuttingDown :
    ∀ (l : List Event) (st : BPState),
      (l.foldl processOneEvent st).isShuttingDown = st.isShuttingDown
  | [], _ => rfl
  | e :: l, st => by
      rw [List.foldl_cons, procFold_isShuttingDown l, processOneEvent_isShuttingDown]

theorem procFold_batchCount :
    ∀ (l : List Event) (st : BPState),
      (l.foldl processOneEvent st).batchCount = st.batchCount
  | [], _ => rfl
  | e :: l, st => by
      rw [List.foldl_cons, procFold_batchCount l, processOneEvent_batchCount]

theorem procFold_strategyCalls :
    ∀ (l : List Event) (st : BPState),
      (l.foldl processOneEvent st).strategyCalls =
        st.strategyCalls ++ l.filter (fun e => (st.strategies e.eventType).isSome)
  | [], st => by simp
  | e :: l, st => by
      rw [List.foldl_cons, procFold_strategyCalls l, processOneEvent_strategyCalls,
        processOneEvent_strategies]
      cases h : (st.strategies e.eventType).isSome <;>
        simp [List.filter_cons, h]

theorem procFold_log :
    ∀ (l : List Event) (st : BPState),
      (l.foldl processOneEvent st).log =
        st.log ++ l.map (fun e => eventLogEntry st.strategies e)
  | [], st => by simp
  | e :: l, st => by
      rw [List.foldl_cons, procFold_log l, processOneEvent_log,
        processOneEvent_strategies]
      simp

theorem procFold_counts :
    ∀ (l : List Event) (st : BPState),
      (l.foldl processOneEvent st).successCount +
        (l.foldl processOneEvent st).errorCount =
        st.successCount + st.errorCount + l.length
  | [], st => by simp
  | e :: l, st => by
      rw [List.foldl_cons]
      have h1 := procFold_counts l (processOneEvent st e)
      have h2 := processOneEvent_counts st e
      simp only [List.length_cons]
      omega

theorem procFold_processed_success :
    ∀ (l : List Event) (st : BPState),
      (l.foldl processOneEvent st).processedCount + st.successCount =
        (l.foldl processOneEvent st).successCount + st.processedCount
  | [], st => by simp [Nat.add_comm]
  | e :: l, st => by
      rw [List.foldl_cons]
      have h1 := procFold_processed_success l (processOneEvent st e)
      have h2 := processOneEvent_processed_success st e
      omega

/-! ## Structural lemmas about `processBatch`, `addEventCore`, `shutdown` -/

theorem startBatchTimer_eq (st : BPState) :
    startBatchTimer st = { st with timerActive := !st.isShuttingDown } := by
  unfold startBatchTimer
  cases h : st.isShuttingDown <;> simp [h]

/-- Everything `processBatch` does to a non-empty batch, field by field. -/
theorem processBatch_nonempty (st : BPState) (h : st.eventBatch ≠ []) :
    (processBatch st).eventBatch = [] ∧
    (processBatch st).flushedBatches = st.flushedBatches ++ [st.eventBatch] ∧
    (processBatch st).strategies = st.strategies ∧
    (processBatch st).isShuttingDown = st.isShuttingDown ∧
    (processBatch st).batchCount = st.batchCount + 1 ∧
    (processBatch st).strategyCalls =
      st.strategyCalls ++
        st.eventBatch.filter (fun e => (st.strategies e.eventType).isSome) ∧
    (processBatch st).log =
      st.log ++ BPLog.processingBatch (st.batchCount + 1) st.eventBatch.length ::
        (st.eventBatch.map (fun e => eventLogEntry st.strategies e) ++
          [BPLog.batchCompleted (st.batchCount + 1)]) ∧
    (processBatch st).successCount + (processBatch st).errorCount =
      st.successCount + st.errorCount + st.eventBatch.length ∧
    (processBatch st).processedCount + st.successCount =
      (processBatch st).successCount + st.processedCount := by
  have hb : st.eventBatch.isEmpty = false := by
    cases hE : st.eventBatch with
    | nil => exact absurd hE h
    | cons a l => rfl
  unfold processBatch
  rw [hb]
  simp only [Bool.false_eq_true, if_false, startBatchTimer_eq]
  refine ⟨?_, ?_, ?_, ?_, ?_, ?_, ?_, ?_, ?_⟩
  · simp [procFold_eventBatch]
  · simp [procFold_flushedBatches]
  · simp [procFold_strategies]
  · simp [procFold_isShuttingDown]
  · simp [procFold_batchCount]
  · simp [procFold_strategyCalls, procFold_strategies]
  · simp [procFold_log, procFold_strategies]
  · have := procFold_counts st.eventBatch
      { st with
          eventBatch := []
          batchCount := st.batchCount + 1
          flushedBatches := st.flushedBatches ++ [st.eventBatch]
          log := st.log ++ [BPLog.processingBatch (st.batchCount + 1) st.eventBatch.length] }
    simp only at this ⊢
    omega
  · have := procFold_processed_success st.eventBatch
      { st with
          eventBatch := []
          batchCount := st.batchCount + 1
          flushedBatches := st.flushedBatches ++ [st.eventBatch]
          log := st.log ++ [BPLog.processingBatch (st.batchCount + 1) st.eventBatch.length] }
    simp only at this ⊢
    omega

theorem addEventCore_shuttingDown (cfg : BPConfig) (st : BPState) (e : Event)
    (h : st.isShuttingDown = true) :
    addEventCore cfg st e =
      { st with log := st.log ++ [BPLog.rejectShuttingDown e.eventType e.eventId] } := by
  simp [addEventCore, h]

theorem addEventCore_push (cfg : BPConfig) (st : BPState) (e : Event)
    (h : st.isShuttingDown = false) (hlt : st.eventBatch.length + 1 < cfg.batchSize) :
    addEventCore cfg st e =
      { st with
          eventBatch := st.eventBatch ++ [e]
          log := st.log ++
            [BPLog.eventAdded e.eventType e.eventId (st.eventBatch.length + 1)] } := by
  unfold addEventCore
  rw [h]
  simp only [Bool.false_eq_true, if_false]
  rw [if_neg]
  simp only [List.length_append, List.length_cons, List.length_nil]
  omega

theorem addEventCore_flush (cfg : BPConfig) (st : BPState) (e : Event)
    (h : st.isShuttingDown = false) (hge : cfg.batchSize ≤ st.eventBatch.length + 1) :
    addEventCore cfg st e =
      processBatch
        { st with
            eventBatch := st.eventBatch ++ [e]
            log := st.log ++
              [BPLog.eventAdded e.eventType e.eventId (st.eventBatch.length + 1),
               BPLog.sizeLimitReached] } := by
  unfold addEventCore
  rw [h]
  simp only [Bool.false_eq_true, if_false]
  rw [if_pos]
  · simp
  · simp only [List.length_append, List.length_cons, List.length_nil]
    omega

/-! ## Lemmas about `executeWithRetry` -/

/-- The sequence of delays actually awaited over `n` waits, starting
    from current delay `d`: each wait uses the current delay, then the
    delay is recomputed as `min(delay * backoffFactor, maxDelayMs)`. -/
def delaysFrom (factor maxD : Nat) : Nat → Nat → List Nat
  | _, 0 => []
  | d, n + 1 => d :: delaysFrom factor maxD (min (d * factor) maxD) n

theorem delaysFrom_length (factor maxD : Nat) :
    ∀ (n d : Nat), (delaysFrom factor maxD d n).length = n
  | 0, _ => rfl
  | n + 1, d => by
      unfold delaysFrom
      rw [List.length_cons, delaysFrom_length factor maxD n]

theorem min_clamp_mul (a M c : Nat) (hc : 1 ≤ c) :
    min (min a M * c) M = min (a * c) M := by
  rcases le_or_lt a M with h | h
  · rw [Nat.min_eq_left h]
  · rw [Nat.min_eq_right (Nat.le_of_lt h)]
    have h1 : M ≤ M * c := Nat.le_mul_of_pos_right M (by omega)
    have h2 : M ≤ a * c :=
      Nat.le_trans (Nat.le_of_lt h) (Nat.le_mul_of_pos_right a (by omega))
    rw [Nat.min_eq_right h1, Nat.min_eq_right h2]

/-- Closed form of the awaited delays: the first wait is the starting
    delay itself (no cap is applied to it), and the j-th wait
    (0-indexed, j ≥ 1) is `min(d * factor^j, maxD)`. -/
theorem delaysFrom_getElem (factor maxD : Nat) (hf : 1 ≤ factor) :
    ∀ (n d j : Nat), j < n →
      (delaysFrom factor maxD d n)[j]? =
        some (if j = 0 then d else min (d * factor ^ j) maxD)
  | 0, _, j, hj => absurd hj (Nat.not_lt_zero j)
  | n + 1, d, 0, _ => by simp [delaysFrom]
  | n + 1, d, j + 1, hj => by
      unfold delaysFrom
      rw [List.getElem?_cons_succ,
        delaysFrom_getElem factor maxD hf n (min (d * factor) maxD) j
          (by omega)]
      rcases Nat.eq_zero_or_pos j with hz | hpos
      · subst hz
        simp [pow_one]
      · have hj0 : ¬ j = 0 := by omega
        have hpow : 1 ≤ factor ^ j := Nat.one_le_pow j factor (by omega)
        rw [if_neg hj0, if_neg (by omega : ¬ j + 1 = 0),
          min_clamp_mul (d * factor) maxD (factor ^ j) hpow]
        have : d * factor * factor ^ j = d * factor ^ (j + 1) := by ring
        rw [this]

/-- Behaviour of the retry loop when the operation fails at every
    attempt it is given: each attempt logs and waits, the final attempt
    escalates to the DLQ exactly once when an event and a sink are
    configured (whatever the sink call itself does), and the last
    error is re-thrown. -/
theorem retryLoop_allFail {α : Type} (cfg : RetryConfig)
    (svc : Option DLQService) (event : Option Event)
    (op : Nat → Except String α) (err : Nat → String)
    (hop : ∀ n, 1 ≤ n → n ≤ cfg.maxAttempts → op n = Except.error (err n)) :
    ∀ (fuel a d : Nat) (le : Option String),
      fuel + a = cfg.maxAttempts + 1 → 1 ≤ a → a ≤ cfg.maxAttempts →
      (retryLoop cfg svc event op fuel a d le).result =
          Except.error (some (err cfg.maxAttempts)) ∧
      (retryLoop cfg svc event op fuel a d le).attempts = fuel ∧
      (retryLoop cfg svc event op fuel a d le).waits =
          delaysFrom cfg.backoffFactor cfg.maxDelayMs d (fuel - 1) ∧
      (retryLoop cfg svc event op fuel a d le).dlqCalls =
          (match event, svc with
           | some e, some _ => [(e, err cfg.maxAttempts, cfg.maxAttempts)]
           | _, _ => []) ∧
      (∀ e s, event = some e → svc = some s →
        ∀ dmsg, s e (err cfg.maxAttempts) cfg.maxAttempts = Except.error dmsg →
          RetryLog.dlqFailed e.eventId dmsg ∈
            (retryLoop cfg svc event op fuel a d le).log) ∧
      (∀ e s, event = some e → svc = some s →
        ∀ u, s e (err cfg.maxAttempts) cfg.maxAttempts = Except.ok u →
          RetryLog.dlqSent e.eventId cfg.maxAttempts ∈
            (retryLoop cfg svc event op fuel a d le).log)
  | 0, a, d, le, hfa, ha1, ham => by omega
  | fuel + 1, a, d, le, hfa, ha1, ham => by
      have hopa : op a = Except.error (err a) := hop a ha1 ham
      rcases eq_or_lt_of_le ham with hlast | hlt
      · -- final attempt: a = maxAttempts, so fuel = 0
        have hfuel0 : fuel = 0 := by omega
        subst hfuel0
        subst hlast
        unfold retryLoop
        simp only [hopa, if_true]
        refine ⟨trivial, trivial, rfl, trivial, ?_, ?_⟩
        · rintro e s rfl rfl dmsg hd
          simp [hd]
        · rintro e s rfl rfl u hd
          simp [hd]
      · -- not the final attempt: recurse
        have hne : ¬ a = cfg.maxAttempts := by omega
        obtain ⟨k, rfl⟩ : ∃ k, fuel = k + 1 := ⟨fuel - 1, by omega⟩
        obtain ⟨ih1, ih2, ih3, ih4, ih5, ih6⟩ :=
          retryLoop_allFail cfg svc event op err hop (k + 1) (a + 1)
            (min (d * cfg.backoffFactor) cfg.maxDelayMs) (some (err a))
            (by omega) (by omega) (by omega)
        unfold retryLoop
        simp only [hopa]
        rw [if_neg hne]
        refine ⟨ih1, ?_, ?_, ih4, ?_, ?_⟩
        · show 1 + (retryLoop cfg svc event op (k + 1) (a + 1)
            (min (d * cfg.backoffFactor) cfg.maxDelayMs) (some (err a))).attempts
            = k + 1 + 1
          rw [ih2]
          omega
        · show d :: (retryLoop cfg svc event op (k + 1) (a + 1)
            (min (d * cfg.backoffFactor) cfg.maxDelayMs) (some (err a))).waits
            = delaysFrom cfg.backoffFactor cfg.maxDelayMs d (k + 1 + 1 - 1)
          rw [ih3]
          simp only [Nat.add_sub_cancel]
          rfl
        · rintro e s rfl rfl dmsg hd
          exact List.mem_append_right _ (ih5 e s rfl rfl dmsg hd)
        · rintro e s rfl rfl u hd
          exact List.mem_append_right _ (ih6 e s rfl rfl u hd)

/-! ## The flush schedule of a submission sequence -/

theorem runAdds_nil (cfg : BPConfig) (st : BPState) :
    runAdds cfg st [] = st := rfl

theorem runAdds_cons (cfg : BPConfig) (st : BPState) (e : Event)
    (evs : List Event) :
    runAdds cfg st (e :: evs) = runAdds cfg (addEventCore cfg st e) evs := rfl

/-- Master lemma for size-triggered batching: folding `addEvent` over a
    submission sequence, starting from a non-full buffer on a live
    processor, appends some new flushed batches `nf` and leaves a
    remainder buffer `rem`; the new batches each have exactly
    `batchSize` events, their concatenation followed by the remainder
    is the old buffer followed by the submissions in order, and the
    strategy-invocation trace grows by exactly the flushed events whose
    type has a registered strategy, in order. -/
theorem runAdds_spec (cfg : BPConfig) (hk : 1 ≤ cfg.batchSize) :
    ∀ (evs : List Event) (st : BPState),
      st.isShuttingDown = false →
      st.eventBatch.length < cfg.batchSize →
      ∃ (nf : List (List Event)) (rem : List Event),
        (runAdds cfg st evs).flushedBatches = st.flushedBatches ++ nf ∧
        (runAdds cfg st evs).eventBatch = rem ∧
        (runAdds cfg st evs).strategyCalls = st.strategyCalls ++
          nf.flatten.filter (fun e => (st.strategies e.eventType).isSome) ∧
        nf.flatten ++ rem = st.eventBatch ++ evs ∧
        (∀ b ∈ nf, b.length = cfg.batchSize) ∧
        rem.length < cfg.batchSize ∧
        (runAdds cfg st evs).strategies = st.strategies ∧
        (runAdds cfg st evs).isShuttingDown = false
  | [], st => by
      intro hsd hlen
      exact ⟨[], st.eventBatch, by simp [runAdds_nil], rfl, by simp [runAdds_nil],
        by simp, by simp, hlen, rfl, hsd⟩
  | e :: evs, st => by
      intro hsd hlen
      rw [runAdds_cons]
      rcases Nat.lt_or_ge (st.eventBatch.length + 1) cfg.batchSize with hlt | hge
      · -- buffer not yet full after the push: no flush on this submit
        rw [addEventCore_push cfg st e hsd hlt]
        obtain ⟨nf, rem, h1, h2, h3, h4, h5, h6, h7, h8⟩ :=
          runAdds_spec cfg hk evs
            { st with
                eventBatch := st.eventBatch ++ [e]
                log := st.log ++
                  [BPLog.eventAdded e.eventType e.eventId (st.eventBatch.length + 1)] }
            hsd (by simpa using hlt)
        have h4a : nf.flatten ++ rem = (st.eventBatch ++ [e]) ++ evs := h4
        refine ⟨nf, rem, h1, h2, h3, ?_, h5, h6, h7, h8⟩
        rw [h4a, List.append_assoc]
        rfl
      · -- the push fills the buffer: a flush happens inside this submit
        rw [addEventCore_flush cfg st e hsd hge]
        set stP : BPState :=
          { st with
              eventBatch := st.eventBatch ++ [e]
              log := st.log ++
                [BPLog.eventAdded e.eventType e.eventId (st.eventBatch.length + 1),
                 BPLog.sizeLimitReached] } with hstP
        have hPne : stP.eventBatch ≠ [] := by simp [hstP]
        obtain ⟨p1, p2, p3, p4, p5, p6, p7, p8, p9⟩ := processBatch_nonempty stP hPne
        have hPsd : (processBatch stP).isShuttingDown = false := by
          rw [p4]; exact hsd
        have hPlen : (processBatch stP).eventBatch.length < cfg.batchSize := by
          rw [p1]; simpa using hk
        obtain ⟨nf, rem, h1, h2, h3, h4, h5, h6, h7, h8⟩ :=
          runAdds_spec cfg hk evs (processBatch stP) hPsd hPlen
        have hBlen : (st.eventBatch ++ [e]).length = cfg.batchSize := by
          simp only [List.length_append, List.length_cons, List.length_nil]
          omega
        rw [p1] at h4
        simp only [List.nil_append] at h4
        refine ⟨(st.eventBatch ++ [e]) :: nf, rem, ?_, h2, ?_, ?_, ?_, h6, ?_, h8⟩
        · rw [h1, p2]
          simp [hstP]
        · rw [h3, p6, p3, List.flatten_cons, List.filter_append]
          simp only [show stP.strategies = st.strategies from rfl,
            show stP.strategyCalls = st.strategyCalls from rfl,
            show stP.eventBatch = st.eventBatch ++ [e] from rfl,
            List.filter_append, List.append_assoc]
        · rw [List.flatten_cons, List.append_assoc, h4]
          simp [hstP]
        · intro b hb
          rcases List.mem_cons.mp hb with hbe | hbm
          · rw [hbe]; exact hBlen
          · exact h5 b hbm
        · rw [h7, p3]

/-! ## Structural lemmas about `shutdown` and operation sequences -/

/-- `shutdown()` on an empty buffer: flag set, timer cleared, logs only. -/
theorem shutdown_eq_empty (st : BPState) (h : st.eventBatch.isEmpty = true) :
    shutdown st =
      { st with
          isShuttingDown := true
          timerActive := false
          log := st.log ++ [BPLog.shutdownInitiated] ++ [BPLog.shutdownCompleted] } := by
  simp only [shutdown, h, if_true]

/-- `shutdown()` on a non-empty buffer: flag set, timer cleared, one
    final `processBatch` of the buffered events. -/
theorem shutdown_eq_nonempty (st : BPState) (h : st.eventBatch.isEmpty = false) :
    shutdown st =
      { processBatch
          { st with
              isShuttingDown := true
              timerActive := false
              log := st.log ++ [BPLog.shutdownInitiated] ++
                [BPLog.processingRemaining st.eventBatch.length] } with
        log :=
          (processBatch
            { st with
                isShuttingDown := true
                timerActive := false
                log := st.log ++ [BPLog.shutdownInitiated] ++
                  [BPLog.processingRemaining st.eventBatch.length] }).log ++
          [BPLog.shutdownCompleted] } := by
  simp only [shutdown, h, Bool.false_eq_true, if_false]

/-- Everything `shutdown()` does, field by field. -/
theorem shutdown_spec (st : BPState) :
    (shutdown st).eventBatch = [] ∧
    (shutdown st).isShuttingDown = true ∧
    (shutdown st).timerActive = false ∧
    (st.eventBatch ≠ [] →
      (shutdown st).flushedBatches = st.flushedBatches ++ [st.eventBatch]) ∧
    (st.eventBatch = [] → (shutdown st).flushedBatches = st.flushedBatches) ∧
    (shutdown st).strategies = st.strategies ∧
    (st.eventBatch ≠ [] →
      (shutdown st).strategyCalls = st.strategyCalls ++
        st.eventBatch.filter (fun e => (st.strategies e.eventType).isSome)) ∧
    (st.eventBatch = [] → (shutdown st).strategyCalls = st.strategyCalls) ∧
    (shutdown st).successCount + (shutdown st).errorCount =
      st.successCount + st.errorCount + st.eventBatch.length ∧
    (shutdown st).processedCount + st.successCount =
      (shutdown st).successCount + st.processedCount := by
  by_cases hE : st.eventBatch = []
  · rw [shutdown_eq_empty st (by rw [hE]; rfl)]
    simp [hE, Nat.add_comm]
  · have hEmp : st.eventBatch.isEmpty = false := by
      cases h2 : st.eventBatch with
      | nil => exact absurd h2 hE
      | cons _ _ => rfl
    rw [shutdown_eq_nonempty st hEmp]
    dsimp only
    set stF : BPState :=
      { st with
          isShuttingDown := true
          timerActive := false
          log := st.log ++ [BPLog.shutdownInitiated] ++
            [BPLog.processingRemaining st.eventBatch.length] } with hstF
    obtain ⟨p1, p2, p3, p4, p5, p6, p7, p8, p9⟩ := processBatch_nonempty stF hE
    refine ⟨p1, p4, ?_, ?_, ?_, p3, ?_, ?_, p8, p9⟩
    · -- the timer is not re-armed because the shutdown flag is set
      unfold processBatch
      rw [show stF.eventBatch.isEmpty = false from hEmp]
      simp only [Bool.false_eq_true, if_false, startBatchTimer_eq]
      rw [procFold_isShuttingDown]
      rfl
    · intro _
      exact p2
    · intro h0
      exact absurd h0 hE
    · intro _
      exact p6
    · intro h0
      exact absurd h0 hE

/-- One external operation on the processor: an event submission or a
    graceful shutdown. -/
inductive BPOp where
  | submit (e : Event)
  | shutdownOp

def applyOp (cfg : BPConfig) (st : BPState) : BPOp → BPState
  | BPOp.submit e => addEventCore cfg st e
  | BPOp.shutdownOp => shutdown st

def runOps (cfg : BPConfig) (st : BPState) (ops : List BPOp) : BPState :=
  ops.foldl (applyOp cfg) st

theorem addEventCore_strategies (cfg : BPConfig) (st : BPState) (e : Event) :
    (addEventCore cfg st e).strategies = st.strategies := by
  cases hsd : st.isShuttingDown with
  | true => rw [addEventCore_shuttingDown cfg st e hsd]
  | false =>
      rcases Nat.lt_or_ge (st.eventBatch.length + 1) cfg.batchSize with hlt | hge
      · rw [addEventCore_push cfg st e hsd hlt]
      · rw [addEventCore_flush cfg st e hsd hge]
        exact (processBatch_nonempty _ (by simp)).2.2.1

theorem addEventCore_processed_success (cfg : BPConfig) (st : BPState)
    (e : Event) :
    (addEventCore cfg st e).processedCount + st.successCount =
      (addEventCore cfg st e).successCount + st.processedCount := by
  cases hsd : st.isShuttingDown with
  | true =>
      rw [addEventCore_shuttingDown cfg st e hsd]
      exact Nat.add_comm _ _
  | false =>
      rcases Nat.lt_or_ge (st.eventBatch.length + 1) cfg.batchSize with hlt | hge
      · rw [addEventCore_push cfg st e hsd hlt]
        exact Nat.add_comm _ _
      · rw [addEventCore_flush cfg st e hsd hge]
        exact (processBatch_nonempty _ (by simp)).2.2.2.2.2.2.2.2

/-- Every operation extends the strategy-invocation trace only with
    events whose type has a registered strategy. -/
theorem applyOp_strategyCalls_growth (cfg : BPConfig) (st : BPState)
    (op : BPOp) :
    ∃ l, (applyOp cfg st op).strategyCalls = st.strategyCalls ++ l ∧
      ∀ x ∈ l, (st.strategies x.eventType).isSome = true := by
  cases op with
  | shutdownOp =>
      obtain ⟨_, _, _, _, _, _, q7, q8, _, _⟩ := shutdown_spec st
      cases hE : st.eventBatch with
      | nil =>
          exact ⟨[], by simpa using q8 hE, by simp⟩
      | cons a l =>
          have hne : st.eventBatch ≠ [] := by rw [hE]; simp
          refine ⟨_, q7 hne, ?_⟩
          intro x hx
          exact (List.mem_filter.mp hx).2
  | submit e =>
      show ∃ l, (addEventCore cfg st e).strategyCalls = _ ∧ _
      cases hsd : st.isShuttingDown with
      | true =>
          rw [addEventCore_shuttingDown cfg st e hsd]
          exact ⟨[], by simp, by simp⟩
      | false =>
          rcases Nat.lt_or_ge (st.eventBatch.length + 1) cfg.batchSize with hlt | hge
          · rw [addEventCore_push cfg st e hsd hlt]
            exact ⟨[], by simp, by simp⟩
          · rw [addEventCore_flush cfg st e hsd hge]
            obtain ⟨_, _, _, _, _, q6, _, _, _⟩ := processBatch_nonempty
              { st with
                  eventBatch := st.eventBatch ++ [e]
                  log := st.log ++
                    [BPLog.eventAdded e.eventType e.eventId (st.eventBatch.length + 1),
                     BPLog.sizeLimitReached] } (by simp)
            refine ⟨_, q6, ?_⟩
            intro x hx
            exact (List.mem_filter.mp hx).2

theorem applyOp_strategies (cfg : BPConfig) (st : BPState) (op : BPOp) :
    (applyOp cfg st op).strategies = st.strategies := by
  cases op with
  | submit e => exact addEventCore_strategies cfg st e
  | shutdownOp => exact (shutdown_spec st).2.2.2.2.2.1

theorem applyOp_processed_success (cfg : BPConfig) (st : BPState) (op : BPOp) :
    (applyOp cfg st op).processedCount + st.successCount =
      (applyOp cfg st op).successCount + st.processedCount := by
  cases op with
  | submit e => exact addEventCore_processed_success cfg st e
  | shutdownOp => exact (shutdown_spec st).2.2.2.2.2.2.2.2.2

theorem runOps_strategies (cfg : BPConfig) :
    ∀ (ops : List BPOp) (st : BPState),
      (runOps cfg st ops).strategies = st.strategies
  | [], _ => rfl
  | op :: ops, st => by
      show (runOps cfg (applyOp cfg st op) ops).strategies = st.strategies
      rw [runOps_strategies cfg ops, applyOp_strategies]

theorem runOps_strategyCalls_growth (cfg : BPConfig) :
    ∀ (ops : List BPOp) (st : BPState),
      ∃ l, (runOps cfg st ops).strategyCalls = st.strategyCalls ++ l ∧
        ∀ x ∈ l, (st.strategies x.eventType).isSome = true
  | [], st => ⟨[], by simp [runOps], by simp⟩
  | op :: ops, st => by
      obtain ⟨l1, hl1, hm1⟩ := applyOp_strategyCalls_growth cfg st op
      obtain ⟨l2, hl2, hm2⟩ := runOps_strategyCalls_growth cfg ops (applyOp cfg st op)
      refine ⟨l1 ++ l2, ?_, ?_⟩
      · show (runOps cfg (applyOp cfg st op) ops).strategyCalls = _
        rw [hl2, hl1, List.append_assoc]
      · intro x hx
        rcases List.mem_append.mp hx with hx1 | hx2
        · exact hm1 x hx1
        · have := hm2 x hx2
          rwa [applyOp_strategies] at this

theorem runOps_processed_success (cfg : BPConfig) :
    ∀ (ops : List BPOp) (st : BPState),
      (runOps cfg st ops).processedCount + st.successCount =
        (runOps cfg st ops).successCount + st.processedCount
  | [], st => Nat.add_comm _ _
  | op :: ops, st => by
      have h1 := runOps_processed_success cfg ops (applyOp cfg st op)
      have h2 := applyOp_processed_success cfg st op
      show (runOps cfg (applyOp cfg st op) ops).processedCount + _ =
        (runOps cfg (applyOp cfg st op) ops).successCount + _
      omega

/-! ## Concrete fixtures used by witnesses and counterexamples -/

def sampleEvent (i : Nat) : Event :=
  { eventId := "evt-" ++ toString i
    eventType := "OrderCreated"
    aggregateId := "order-" ++ toString i
    occurredOn := 0
    version := 1
    data := [] }

def unknownEvent (i : Nat) : Event :=
  { sampleEvent i with eventType := "UnknownType" }

def okStrategy : ProcessingStrategy :=
  { name := "OrderProcessingStrategy", process := fun _ => Except.ok () }

def boomStrategy : ProcessingStrategy :=
  { name := "FailingStrategy", process := fun _ => Except.error "boom" }

def cfgB3 : BPConfig :=
  { batchSize := 3, batchIntervalMs := 10000, maxWaitTimeMs := 30000 }

def cfgB1 : BPConfig :=
  { batchSize := 1, batchIntervalMs := 10000, maxWaitTimeMs := 30000 }

def stOrder : BPState := registerStrategy initBP "OrderCreated" okStrategy

def stBoom : BPState := registerStrategy initBP "OrderCreated" boomStrategy

def retryCfgDefault : RetryConfig :=
  { maxAttempts := 5, initialDelayMs := 1000, maxDelayMs := 30000, backoffFactor := 2 }

def retryCfgTwo : RetryConfig :=
  { maxAttempts := 2, initialDelayMs := 1000, maxDelayMs := 30000, backoffFactor := 2 }

def retryCfgHighInit : RetryConfig :=
  { maxAttempts := 2, initialDelayMs := 50000, maxDelayMs := 30000, backoffFactor := 2 }

def boomOp : Nat → Except String Unit := fun _ => Except.error "boom"

def okDlq : DLQService := fun _ _ _ => Except.ok ()

def obsA : EventObserver :=
  { name := "EmailNotifier"
    isInterestedIn := fun t => t == "OrderCreated"
    handleEvent := fun _ => Except.ok () }

def obsB : EventObserver :=
  { name := "WebhookNotifier"
    isInterestedIn := fun t => t == "OrderCreated"
    handleEvent := fun _ => Except.error "obs-boom" }

def obsC : EventObserver :=
  { name := "AuditNotifier"
    isInterestedIn := fun t => t == "OrderCompleted"
    handleEvent := fun _ => Except.ok () }

def freshUuid : String := "123e4567-e89b-42d3-a456-426614174000"

/-- Length of a concatenation of equal-length chunks. -/
theorem flatten_length_const {β : Type} :
    ∀ (L : List (List β)) (k : Nat), (∀ b ∈ L, b.length = k) →
      L.flatten.length = L.length * k
  | [], _, _ => by simp
  | b :: L, k, h => by
      rw [List.flatten_cons, List.length_append,
        flatten_length_const L k (fun x hx => h x (List.mem_cons_of_mem b hx)),
        h b (List.mem_cons_self b L)]
      simp [Nat.succ_mul]
      omega

/-! ## Claim C1 -/

/-- C1 (as stated) is false on the code: submitting 3 `OrderCreated`
    events with `batchSize = 3` produces one flush, but inside that
    flush the strategy's `process` is invoked once *per event* — three
    invocations, each with a single event — not once with the sequence
    of 3 events. -/
theorem c1_counterexample :
    (runAdds cfgB3 stOrder
      [sampleEvent 1, sampleEvent 2, sampleEvent 3]).flushedBatches.length = 1 ∧
    (runAdds cfgB3 stOrder
      [sampleEvent 1, sampleEvent 2, sampleEvent 3]).strategyCalls.length = 3 ∧
    ¬ (runAdds cfgB3 stOrder
      [sampleEvent 1, sampleEvent 2, sampleEvent 3]).strategyCalls.length = 1 := by
  refine ⟨rfl, rfl, by decide⟩

/-- C1 (amended): for a single registered event type and no timer
    firing, the submissions are flushed in `⌊N/k⌋` batches of exactly
    `k` events each, in submission order, with the remaining `N mod k`
    events still buffered; within each flush the strategy is invoked
    once per event of the batch, in order — so the invocation trace is
    exactly the concatenation of the flushed batches. -/
theorem c1_flush_schedule (cfg : BPConfig) (hk : 1 ≤ cfg.batchSize)
    (T : String) (strat : ProcessingStrategy) (evs : List Event)
    (hT : ∀ e ∈ evs, e.eventType = T) :
    (runAdds cfg (registerStrategy initBP T strat) evs).flushedBatches.flatten ++
      (runAdds cfg (registerStrategy initBP T strat) evs).eventBatch = evs ∧
    (∀ b ∈ (runAdds cfg (registerStrategy initBP T strat) evs).flushedBatches,
      b.length = cfg.batchSize) ∧
    (runAdds cfg (registerStrategy initBP T strat) evs).eventBatch.length <
      cfg.batchSize ∧
    (runAdds cfg (registerStrategy initBP T strat) evs).flushedBatches.length =
      evs.length / cfg.batchSize ∧
    (runAdds cfg (registerStrategy initBP T strat) evs).strategyCalls =
      (runAdds cfg (registerStrategy initBP T strat) evs).flushedBatches.flatten := by
  obtain ⟨nf, rem, h1, h2, h3, h4, h5, h6, h7, h8⟩ :=
    runAdds_spec cfg hk evs (registerStrategy initBP T strat) rfl
      (by simpa using hk)
  have h1n : (runAdds cfg (registerStrategy initBP T strat) evs).flushedBatches = nf := by
    rw [h1]; rfl
  have h4n : nf.flatten ++ rem = evs := by
    rw [h4]; rfl
  have hmemT : ∀ x ∈ nf.flatten,
      ((registerStrategy initBP T strat).strategies x.eventType).isSome = true := by
    intro x hx
    have hxe : x ∈ evs := by
      rw [← h4n]; exact List.mem_append_left rem hx
    have hxT := hT x hxe
    show (if x.eventType = T then some strat else initBP.strategies x.eventType).isSome = true
    rw [if_pos hxT]
    rfl
  refine ⟨?_, ?_, ?_, ?_, ?_⟩
  · rw [h1n, h2, h4n]
  · rw [h1n]; exact h5
  · rw [h2]; exact h6
  · rw [h1n]
    have hlen : evs.length = nf.length * cfg.batchSize + rem.length := by
      rw [← h4n, List.length_append, flatten_length_const nf cfg.batchSize h5]
    rw [hlen, Nat.mul_comm, Nat.mul_add_div (by omega), Nat.div_eq_of_lt h6]
    omega
  · rw [h1n, h3]
    have : List.filter
        (fun e => ((registerStrategy initBP T strat).strategies e.eventType).isSome)
        nf.flatten = nf.flatten := List.filter_eq_self.mpr hmemT
    rw [this]
    rfl

theorem c1_flush_schedule_witness :
    1 ≤ cfgB3.batchSize ∧
    (∀ e ∈ [sampleEvent 1, sampleEvent 2, sampleEvent 3],
      e.eventType = "OrderCreated") ∧
    (runAdds cfgB3 (registerStrategy initBP "OrderCreated" okStrategy)
      [sampleEvent 1, sampleEvent 2, sampleEvent 3]).flushedBatches.length =
      [sampleEvent 1, sampleEvent 2, sampleEvent 3].length / cfgB3.batchSize ∧
    (runAdds cfgB3 (registerStrategy initBP "OrderCreated" okStrategy)
      [sampleEvent 1, sampleEvent 2, sampleEvent 3]).strategyCalls =
      (runAdds cfgB3 (registerStrategy initBP "OrderCreated" okStrategy)
        [sampleEvent 1, sampleEvent 2, sampleEvent 3]).flushedBatches.flatten :=
  ⟨by decide, by decide,
    (c1_flush_schedule cfgB3 (by decide) "OrderCreated" okStrategy
      [sampleEvent 1, sampleEvent 2, sampleEvent 3] (by decide)).2.2.2.1,
    (c1_flush_schedule cfgB3 (by decide) "OrderCreated" okStrategy
      [sampleEvent 1, sampleEvent 2, sampleEvent 3] (by decide)).2.2.2.2⟩

/-! ## Claim C4 -/

/-- C4: when a size-reached submit triggers a flush and the strategy's
    `process` rejects for one or more events of the batch, the submit
    still settles successfully (the rejection is caught inside the
    per-event callback and never propagates to the caller of
    `addEvent`), each failure is logged with the event's identity and
    the error message, and the whole batch is consumed — the buffer is
    empty afterwards, so failing events are not re-enqueued. -/
theorem c4_flush_error_contained (cfg : BPConfig) (st : BPState) (e : Event)
    (hsd : st.isShuttingDown = false)
    (hfull : cfg.batchSize ≤ st.eventBatch.length + 1) :
    (∃ st2, addEvent cfg st e = Except.ok st2) ∧
    (addEventCore cfg st e).eventBatch = [] ∧
    (∀ ev ∈ st.eventBatch ++ [e], ∀ strat msg,
      st.strategies ev.eventType = some strat →
      strat.process ev = Except.error msg →
      BPLog.eventFailed ev.eventType ev.eventId msg ∈ (addEventCore cfg st e).log) := by
  refine ⟨⟨_, rfl⟩, ?_, ?_⟩
  · rw [addEventCore_flush cfg st e hsd hfull]
    exact (processBatch_nonempty _ (by simp)).1
  · intro ev hev strat msg hstrat hproc
    rw [addEventCore_flush cfg st e hsd hfull]
    obtain ⟨_, _, _, _, _, _, q7, _, _⟩ := processBatch_nonempty
      { st with
          eventBatch := st.eventBatch ++ [e]
          log := st.log ++
            [BPLog.eventAdded e.eventType e.eventId (st.eventBatch.length + 1),
             BPLog.sizeLimitReached] } (by simp)
    rw [q7]
    have hentry : eventLogEntry st.strategies ev =
        BPLog.eventFailed ev.eventType ev.eventId msg := by
      unfold eventLogEntry
      simp only [hstrat, hproc]
    have hm : BPLog.eventFailed ev.eventType ev.eventId msg ∈
        (st.eventBatch ++ [e]).map (fun x => eventLogEntry st.strategies x) := by
      rw [← hentry]
      exact List.mem_map_of_mem _ hev
    exact List.mem_append_right _
      (List.mem_cons_of_mem _ (List.mem_append_left _ hm))

theorem c4_flush_error_contained_witness :
    (∃ st2, addEvent cfgB1 stBoom (sampleEvent 1) = Except.ok st2) ∧
    (addEventCore cfgB1 stBoom (sampleEvent 1)).eventBatch = [] ∧
    BPLog.eventFailed "OrderCreated" "evt-1" "boom" ∈
      (addEventCore cfgB1 stBoom (sampleEvent 1)).log :=
  have h := c4_flush_error_contained cfgB1 stBoom (sampleEvent 1) rfl (by decide)
  ⟨h.1, h.2.1,
    h.2.2 (sampleEvent 1) (by decide) boomStrategy "boom" rfl rfl⟩

/-! ## Claim C6 -/

/-- C6: submitting an event whose type has no registered strategy
    settles successfully, the event never enters the
    strategy-invocation trace — not in this call nor in any later
    submission or shutdown — and when the submit itself triggers the
    flush that consumes the event, the `No strategy found` warning is
    logged for it. -/
theorem c6_unregistered_drop (cfg : BPConfig) (st : BPState) (e : Event)
    (hns : st.strategies e.eventType = none)
    (hsd : st.isShuttingDown = false) :
    (∃ st2, addEvent cfg st e = Except.ok st2) ∧
    (∀ ops : List BPOp,
      (runOps cfg (addEventCore cfg st e) ops).strategyCalls.count e =
        st.strategyCalls.count e) ∧
    (cfg.batchSize ≤ st.eventBatch.length + 1 →
      BPLog.noStrategyWarn e.eventType e.eventId ∈ (addEventCore cfg st e).log) := by
  refine ⟨⟨_, rfl⟩, ?_, ?_⟩
  · intro ops
    obtain ⟨l1, hl1, hm1⟩ := applyOp_strategyCalls_growth cfg st (BPOp.submit e)
    obtain ⟨l2, hl2, hm2⟩ :=
      runOps_strategyCalls_growth cfg ops (addEventCore cfg st e)
    have he1 : e ∉ l1 := by
      intro hin
      have := hm1 e hin
      rw [hns] at this
      exact absurd this (by simp)
    have he2 : e ∉ l2 := by
      intro hin
      have := hm2 e hin
      rw [show (addEventCore cfg st e).strategies = st.strategies from
        addEventCore_strategies cfg st e, hns] at this
      exact absurd this (by simp)
    rw [hl2, show (addEventCore cfg st e).strategyCalls = st.strategyCalls ++ l1
      from hl1, List.count_append, List.count_append,
      List.count_eq_zero.mpr he1, List.count_eq_zero.mpr he2]
    omega
  · intro hfull
    rw [addEventCore_flush cfg st e hsd hfull]
    obtain ⟨_, _, _, _, _, _, q7, _, _⟩ := processBatch_nonempty
      { st with
          eventBatch := st.eventBatch ++ [e]
          log := st.log ++
            [BPLog.eventAdded e.eventType e.eventId (st.eventBatch.length + 1),
             BPLog.sizeLimitReached] } (by simp)
    rw [q7]
    have hentry : eventLogEntry st.strategies e =
        BPLog.noStrategyWarn e.eventType e.eventId := by
      unfold eventLogEntry
      simp only [hns]
    have hm : BPLog.noStrategyWarn e.eventType e.eventId ∈
        (st.eventBatch ++ [e]).map (fun x => eventLogEntry st.strategies x) := by
      rw [← hentry]
      exact List.mem_map_of_mem _ (List.mem_append_right _ (by simp))
    exact List.mem_append_right _
      (List.mem_cons_of_mem _ (List.mem_append_left _ hm))

theorem c6_unregistered_drop_witness :
    (∃ st2, addEvent cfgB1 stOrder (unknownEvent 1) = Except.ok st2) ∧
    (runOps cfgB1 (addEventCore cfgB1 stOrder (unknownEvent 1))
      [BPOp.submit (sampleEvent 2), BPOp.shutdownOp]).strategyCalls.count
        (unknownEvent 1) = 0 ∧
    BPLog.noStrategyWarn "UnknownType" "evt-1" ∈
      (addEventCore cfgB1 stOrder (unknownEvent 1)).log :=
  have h := c6_unregistered_drop cfgB1 stOrder (unknownEvent 1) rfl rfl
  ⟨h.1,
    (h.2.1 [BPOp.submit (sampleEvent 2), BPOp.shutdownOp]).trans (by decide),
    h.2.2 (by decide)⟩

/-! ## Claim C7 -/

/-- C7: `shutdown()` cancels the pending batch timer, flushes the
    whole buffer in one final `processBatch` (so no buffered event is
    discarded without being processed by a flush), leaves the buffer
    empty, and stops acceptance: any later submission is rejected with
    only a warning log, changing nothing else. -/
theorem c7_shutdown_flushes_all (st : BPState) :
    (shutdown st).eventBatch = [] ∧
    (shutdown st).isShuttingDown = true ∧
    (shutdown st).timerActive = false ∧
    (st.eventBatch ≠ [] →
      (shutdown st).flushedBatches = st.flushedBatches ++ [st.eventBatch]) ∧
    (st.eventBatch = [] → (shutdown st).flushedBatches = st.flushedBatches) ∧
    (∀ cfg e, addEventCore cfg (shutdown st) e =
      { shutdown st with
          log := (shutdown st).log ++
            [BPLog.rejectShuttingDown e.eventType e.eventId] }) := by
  obtain ⟨p1, p2, p3, p4, p5, _, _, _, _, _⟩ := shutdown_spec st
  exact ⟨p1, p2, p3, p4, p5,
    fun cfg e => addEventCore_shuttingDown cfg (shutdown st) e p2⟩

theorem c7_shutdown_flushes_all_witness :
    (shutdown (runAdds cfgB3 stOrder [sampleEvent 1])).eventBatch = [] ∧
    (shutdown (runAdds cfgB3 stOrder [sampleEvent 1])).timerActive = false ∧
    (shutdown (runAdds cfgB3 stOrder [sampleEvent 1])).flushedBatches =
      (runAdds cfgB3 stOrder [sampleEvent 1]).flushedBatches ++
        [(runAdds cfgB3 stOrder [sampleEvent 1]).eventBatch] ∧
    addEventCore cfgB3 (shutdown (runAdds cfgB3 stOrder [sampleEvent 1]))
        (sampleEvent 2) =
      { shutdown (runAdds cfgB3 stOrder [sampleEvent 1]) with
          log := (shutdown (runAdds cfgB3 stOrder [sampleEvent 1])).log ++
            [BPLog.rejectShuttingDown "OrderCreated" "evt-2"] } :=
  have h := c7_shutdown_flushes_all (runAdds cfgB3 stOrder [sampleEvent 1])
  ⟨h.1, h.2.2.1, h.2.2.2.1 (by decide), h.2.2.2.2.2 cfgB3 (sampleEvent 2)⟩

/-! ## Claim C9 -/

/-- C9: once the shutting-down flag is set, `addEvent` settles
    successfully but the event is silently discarded: only the log
    gains a warning entry, while the buffer, the strategy map and all
    counters are left unchanged. -/
theorem c9_submit_after_shutdown (cfg : BPConfig) (st : BPState) (e : Event)
    (h : st.isShuttingDown = true) :
    addEventCore cfg st e =
      { st with
          log := st.log ++ [BPLog.rejectShuttingDown e.eventType e.eventId] } ∧
    (∃ st2, addEvent cfg st e = Except.ok st2) ∧
    (addEventCore cfg st e).eventBatch = st.eventBatch ∧
    (addEventCore cfg st e).strategies = st.strategies ∧
    (addEventCore cfg st e).processedCount = st.processedCount ∧
    (addEventCore cfg st e).batchCount = st.batchCount ∧
    (addEventCore cfg st e).successCount = st.successCount ∧
    (addEventCore cfg st e).errorCount = st.errorCount := by
  have hq := addEventCore_shuttingDown cfg st e h
  refine ⟨hq, ⟨_, rfl⟩, ?_, ?_, ?_, ?_, ?_, ?_⟩ <;> simp [hq]

theorem c9_submit_after_shutdown_witness :
    addEventCore cfgB3 (shutdown stOrder) (sampleEvent 1) =
      { shutdown stOrder with
          log := (shutdown stOrder).log ++
            [BPLog.rejectShuttingDown "OrderCreated" "evt-1"] } ∧
    (addEventCore cfgB3 (shutdown stOrder) (sampleEvent 1)).eventBatch =
      (shutdown stOrder).eventBatch ∧
    (addEventCore cfgB3 (shutdown stOrder) (sampleEvent 1)).errorCount =
      (shutdown stOrder).errorCount :=
  have h := c9_submit_after_shutdown cfgB3 (shutdown stOrder) (sampleEvent 1)
    (shutdown_spec stOrder).2.1
  ⟨h.1, h.2.2.1, h.2.2.2.2.2.2.2⟩

/-! ## Claim C10 -/

/-- C10 (as stated) is false on the code in its "lowers the success
    rate" rider: consuming an unregistered-type event does increment
    `errorCount`, but when `successCount` is zero the reported rate is
    `0` before and after — it is not lowered.  Concretely, with
    `batchSize = 1`, flushing a second unregistered event increments
    `errorCount` yet leaves `getSuccessRate` unchanged. -/
theorem c10_counterexample :
    (runAdds cfgB1 (runAdds cfgB1 initBP [unknownEvent 1]) [unknownEvent 2]).errorCount
      = (runAdds cfgB1 initBP [unknownEvent 1]).errorCount + 1 ∧
    getSuccessRate
        (runAdds cfgB1 (runAdds cfgB1 initBP [unknownEvent 1]) [unknownEvent 2]) =
      getSuccessRate (runAdds cfgB1 initBP [unknownEvent 1]) := by
  refine ⟨rfl, ?_⟩
  have e1 : (runAdds cfgB1 initBP [unknownEvent 1]).successCount = 0 := rfl
  have e2 : (runAdds cfgB1 initBP [unknownEvent 1]).errorCount = 1 := rfl
  have e3 : (runAdds cfgB1 (runAdds cfgB1 initBP [unknownEvent 1])
      [unknownEvent 2]).successCount = 0 := rfl
  have e4 : (runAdds cfgB1 (runAdds cfgB1 initBP [unknownEvent 1])
      [unknownEvent 2]).errorCount = 2 := rfl
  unfold getSuccessRate
  rw [e1, e2, e3, e4]
  norm_num

/-- C10 (amended): across every sequence of submissions and shutdowns,
    `processedCount = successCount` is invariant; every flush settles
    its whole batch into exactly one of `successCount`/`errorCount`
    (their sum grows by the batch length); and consuming an event with
    no registered strategy increments `errorCount`, leaves
    `successCount` unchanged, and — whenever `successCount` is positive
    — strictly lowers the value reported by `getSuccessRate`. -/
theorem c10_counter_invariants (cfg : BPConfig) (st : BPState)
    (ops : List BPOp) (hps : st.processedCount = st.successCount) :
    (runOps cfg st ops).processedCount = (runOps cfg st ops).successCount ∧
    (∀ st2 : BPState, st2.eventBatch ≠ [] →
      (processBatch st2).successCount + (processBatch st2).errorCount =
        st2.successCount + st2.errorCount + st2.eventBatch.length) ∧
    (∀ (st2 : BPState) (e : Event), st2.strategies e.eventType = none →
      (processOneEvent st2 e).errorCount = st2.errorCount + 1 ∧
      (processOneEvent st2 e).successCount = st2.successCount ∧
      (0 < st2.successCount →
        ∀ q q2, getSuccessRate st2 = some q →
          getSuccessRate (processOneEvent st2 e) = some q2 → q2 < q)) := by
  refine ⟨?_, ?_, ?_⟩
  · have h := runOps_processed_success cfg ops st
    omega
  · intro st2 h2
    exact (processBatch_nonempty st2 h2).2.2.2.2.2.2.2.1
  · intro st2 e hns
    have herr : (processOneEvent st2 e).errorCount = st2.errorCount + 1 := by
      unfold processOneEvent
      simp only [hns]
    have hsuc : (processOneEvent st2 e).successCount = st2.successCount := by
      unfold processOneEvent
      simp only [hns]
    refine ⟨herr, hsuc, ?_⟩
    intro hpos q q2 hq hq2
    have hd1 : st2.successCount + st2.errorCount ≠ 0 := by omega
    have hd2 : (processOneEvent st2 e).successCount +
        (processOneEvent st2 e).errorCount ≠ 0 := by
      rw [herr, hsuc]
      omega
    unfold getSuccessRate at hq hq2
    rw [if_neg hd1] at hq
    rw [if_neg hd2] at hq2
    rw [herr, hsuc] at hq2
    have hqv : q = (st2.successCount : ℚ) /
        ((st2.successCount : ℚ) + (st2.errorCount : ℚ)) * 100 :=
      (Option.some.injEq _ _ ▸ hq).symm
    have hq2v : q2 = (st2.successCount : ℚ) /
        ((st2.successCount : ℚ) + ((st2.errorCount : Nat) + 1 : ℚ)) * 100 := by
      have := (Option.some.injEq _ _ ▸ hq2).symm
      rw [this]
      push_cast
      ring
    rw [hqv, hq2v]
    have hs : (0 : ℚ) < (st2.successCount : ℚ) := by
      exact_mod_cast hpos
    have he0 : (0 : ℚ) ≤ (st2.errorCount : ℚ) := by positivity
    have hb : (0 : ℚ) < (st2.successCount : ℚ) + (st2.errorCount : ℚ) := by
      linarith
    have hbc : (st2.successCount : ℚ) + (st2.errorCount : ℚ) <
        (st2.successCount : ℚ) + ((st2.errorCount : Nat) + 1 : ℚ) := by
      linarith
    have hdiv := div_lt_div_of_pos_left hs hb hbc
    have h100 : (0 : ℚ) < 100 := by norm_num
    exact mul_lt_mul_of_pos_right hdiv h100

theorem c10_counter_invariants_witness :
    (runOps cfgB1 initBP
      [BPOp.submit (sampleEvent 1), BPOp.shutdownOp]).processedCount =
      (runOps cfgB1 initBP
        [BPOp.submit (sampleEvent 1), BPOp.shutdownOp]).successCount ∧
    (processBatch (runAdds cfgB3 stOrder [sampleEvent 1])).successCount +
        (processBatch (runAdds cfgB3 stOrder [sampleEvent 1])).errorCount =
      (runAdds cfgB3 stOrder [sampleEvent 1]).successCount +
        (runAdds cfgB3 stOrder [sampleEvent 1]).errorCount +
        (runAdds cfgB3 stOrder [sampleEvent 1]).eventBatch.length ∧
    (processOneEvent stOrder (unknownEvent 1)).errorCount =
      stOrder.errorCount + 1 :=
  have h := c10_counter_invariants cfgB1 initBP
    [BPOp.submit (sampleEvent 1), BPOp.shutdownOp] rfl
  ⟨h.1,
    h.2.1 (runAdds cfgB3 stOrder [sampleEvent 1]) (by decide),
    (h.2.2 stOrder (unknownEvent 1) rfl).1⟩

/-! ## Claim C2 -/

/-- C2: when the wrapped operation fails on every one of the
    `maxAttempts` attempts and an event and a dead-letter sink are
    configured, `sendToDeadLetterQueue` is invoked exactly once — with
    the event, the last error and `retryCount = maxAttempts` — and the
    last error is then re-thrown to the caller whatever the sink call
    itself did; a sink failure is logged and never replaces the
    original error. -/
theorem c2_dlq_exactly_once {α : Type} (cfg : RetryConfig) (svc : DLQService)
    (e : Event) (op : Nat → Except String α) (err : Nat → String)
    (hop : ∀ n, 1 ≤ n → n ≤ cfg.maxAttempts → op n = Except.error (err n))
    (hm : 1 ≤ cfg.maxAttempts) :
    (executeWithRetry cfg (some svc) (some e) op).dlqCalls =
      [(e, err cfg.maxAttempts, cfg.maxAttempts)] ∧
    (executeWithRetry cfg (some svc) (some e) op).result =
      Except.error (some (err cfg.maxAttempts)) ∧
    (∀ dmsg, svc e (err cfg.maxAttempts) cfg.maxAttempts = Except.error dmsg →
      RetryLog.dlqFailed e.eventId dmsg ∈
        (executeWithRetry cfg (some svc) (some e) op).log) := by
  obtain ⟨h1, h2, h3, h4, h5, h6⟩ :=
    retryLoop_allFail cfg (some svc) (some e) op err hop
      cfg.maxAttempts 1 cfg.initialDelayMs none (by omega) (by omega) hm
  exact ⟨h4, h1, fun dmsg hd => h5 e svc rfl rfl dmsg hd⟩

theorem c2_dlq_exactly_once_witness :
    (executeWithRetry retryCfgTwo (some okDlq) (some (sampleEvent 1))
      boomOp).dlqCalls = [(sampleEvent 1, "boom", 2)] ∧
    (executeWithRetry retryCfgTwo (some okDlq) (some (sampleEvent 1))
      boomOp).result = Except.error (some "boom") :=
  have h := c2_dlq_exactly_once retryCfgTwo okDlq (sampleEvent 1) boomOp
    (fun _ => "boom") (fun _ _ _ => rfl) (by decide)
  ⟨h.1, h.2.1⟩

/-! ## Claim C3 -/

/-- C3 (as stated) is false on the code: the very first wait is the
    raw `initialDelayMs`, with no `maxDelayMs` cap applied — with
    `initialDelayMs = 50000 > maxDelayMs = 30000` the wait before
    attempt 2 is `50000`, not the capped value `30000` that the claim's
    `min(initialDelayMs * backoffFactor^n, maxDelayMs)` formula
    prescribes (under either reading of the exponent). -/
theorem c3_counterexample :
    (executeWithRetry retryCfgHighInit none none boomOp).waits = [50000] ∧
    (executeWithRetry retryCfgHighInit none none boomOp).waits ≠
      [min (retryCfgHighInit.initialDelayMs * retryCfgHighInit.backoffFactor ^ 0)
        retryCfgHighInit.maxDelayMs] ∧
    (executeWithRetry retryCfgHighInit none none boomOp).waits ≠
      [min (retryCfgHighInit.initialDelayMs * retryCfgHighInit.backoffFactor ^ 1)
        retryCfgHighInit.maxDelayMs] ∧
    ¬ (50000 : Nat) ≤ retryCfgHighInit.maxDelayMs := by
  refine ⟨rfl, by decide, by decide, by decide⟩

/-- C3 (amended): when the operation fails on every attempt, there are
    `maxAttempts - 1` waits; the first wait is exactly
    `initialDelayMs` (uncapped), and the wait at 0-indexed position
    `j ≥ 1` is `min(initialDelayMs * backoffFactor^j, maxDelayMs)` —
    so with `initialDelayMs = 1000`, `backoffFactor = 2`,
    `maxDelayMs = 30000`, `maxAttempts = 5` the waits before attempts
    2..5 are 1000, 2000, 4000, 8000 (see the witness). -/
theorem c3_backoff_schedule {α : Type} (cfg : RetryConfig)
    (svc : Option DLQService) (ev : Option Event)
    (op : Nat → Except String α) (err : Nat → String)
    (hop : ∀ n, 1 ≤ n → n ≤ cfg.maxAttempts → op n = Except.error (err n))
    (hm : 1 ≤ cfg.maxAttempts) (hf : 1 ≤ cfg.backoffFactor) :
    (executeWithRetry cfg svc ev op).waits.length = cfg.maxAttempts - 1 ∧
    (∀ j, j < cfg.maxAttempts - 1 →
      (executeWithRetry cfg svc ev op).waits[j]? =
        some (if j = 0 then cfg.initialDelayMs
          else min (cfg.initialDelayMs * cfg.backoffFactor ^ j) cfg.maxDelayMs)) := by
  obtain ⟨h1, h2, h3, h4, h5, h6⟩ :=
    retryLoop_allFail cfg svc ev op err hop
      cfg.maxAttempts 1 cfg.initialDelayMs none (by omega) (by omega) hm
  constructor
  · rw [show (executeWithRetry cfg svc ev op).waits =
      delaysFrom cfg.backoffFactor cfg.maxDelayMs cfg.initialDelayMs
        (cfg.maxAttempts - 1) from h3, delaysFrom_length]
  · intro j hj
    rw [show (executeWithRetry cfg svc ev op).waits =
      delaysFrom cfg.backoffFactor cfg.maxDelayMs cfg.initialDelayMs
        (cfg.maxAttempts - 1) from h3]
    exact delaysFrom_getElem cfg.backoffFactor cfg.maxDelayMs hf
      (cfg.maxAttempts - 1) cfg.initialDelayMs j hj

theorem c3_backoff_schedule_witness :
    (executeWithRetry retryCfgDefault none none boomOp).waits =
      [1000, 2000, 4000, 8000] ∧
    (executeWithRetry retryCfgDefault none none boomOp).waits.length =
      retryCfgDefault.maxAttempts - 1 ∧
    (executeWithRetry retryCfgDefault none none boomOp).waits[2]? =
      some (min (retryCfgDefault.initialDelayMs *
        retryCfgDefault.backoffFactor ^ 2) retryCfgDefault.maxDelayMs) :=
  have h := c3_backoff_schedule retryCfgDefault none none boomOp
    (fun _ => "boom") (fun _ _ _ => rfl) (by decide) (by decide)
  ⟨by decide, h.1, (h.2 2 (by decide)).trans (by decide)⟩

/-! ## Claim C5 -/

/-- C5: `notifyObservers` invokes exactly the observers whose interest
    predicate matches the event's type, in registration order; with no
    interested observer it returns immediately as a no-op; and every
    interested observer is invoked even when siblings throw — a
    thrower's error is logged with the observer's name and the call
    itself still fulfills (`Promise.allSettled`). -/
theorem c5_notify_interested (observers : List EventObserver) (e : Event) :
    ∃ out, notifyObservers observers e = Except.ok out ∧
      out.invoked =
        (observers.filter (fun o => o.isInterestedIn e.eventType)).map
          (fun o => o.name) ∧
      (observers.filter (fun o => o.isInterestedIn e.eventType) = [] →
        out = ⟨[], [], []⟩) ∧
      (∀ o ∈ observers.filter (fun o => o.isInterestedIn e.eventType),
        ∀ msg, o.handleEvent e = Except.error msg →
          ObsLog.observerFailed o.name e.eventId msg ∈ out.log) := by
  unfold notifyObservers
  by_cases hI : observers.filter (fun o => o.isInterestedIn e.eventType) = []
  · rw [hI]
    refine ⟨⟨[], [], []⟩, rfl, by simp, fun _ => rfl, ?_⟩
    intro o ho
    simp at ho
  · have hIb : (observers.filter
        (fun o => o.isInterestedIn e.eventType)).isEmpty = false := by
      cases h2 : observers.filter (fun o => o.isInterestedIn e.eventType) with
      | nil => exact absurd h2 hI
      | cons _ _ => rfl
    simp only [hIb, Bool.false_eq_true, if_false]
    refine ⟨_, rfl, rfl, fun h0 => absurd h0 hI, ?_⟩
    intro o ho msg hmsg
    have hpair : (o.name, some msg) ∈
        (observers.filter (fun o => o.isInterestedIn e.eventType)).map
          (fun o => match o.handleEvent e with
            | Except.ok _ => (o.name, (none : Option String))
            | Except.error msg => (o.name, some msg)) := by
      have hmem := List.mem_map_of_mem
        (fun o => match o.handleEvent e with
          | Except.ok _ => (o.name, (none : Option String))
          | Except.error msg => (o.name, some msg)) ho
      simpa only [hmsg] using hmem
    exact List.mem_cons_of_mem _
      (List.mem_filterMap.mpr ⟨(o.name, some msg), hpair, rfl⟩)

theorem c5_notify_interested_witness :
    ∃ out, notifyObservers [obsA, obsB, obsC] (sampleEvent 1) = Except.ok out ∧
      out.invoked = ["EmailNotifier", "WebhookNotifier"] ∧
      ObsLog.observerFailed "WebhookNotifier" "evt-1" "obs-boom" ∈ out.log := by
  obtain ⟨out, h1, h2, h3, h4⟩ :=
    c5_notify_interested [obsA, obsB, obsC] (sampleEvent 1)
  refine ⟨out, h1, ?_, ?_⟩
  · rw [h2]
    rfl
  · exact h4 obsB
      (List.mem_filter.mpr
        ⟨List.mem_cons_of_mem _ (List.mem_cons_self _ _), rfl⟩)
      "obs-boom" rfl

/-! ## Claim C8 -/

/-- C8 (as stated) is false on the code at one boundary input: a
    message whose `eventId` field is present but holds the *empty
    string* is not rejected — JavaScript string truthiness sends
    `message.eventId ? new EventId(message.eventId) : new EventId()`
    down the generate-fresh branch, so the handler converts the
    message with a fresh id and runs the operation (one successful
    attempt here), instead of throwing `Invalid EventId format` with
    zero attempts. -/
theorem c8_counterexample :
    uuidRegexTest "" = false ∧
    (RetryableHandle retryCfgDefault none (fun _ _ => Except.ok ()) freshUuid 0
      { eventId := some "", eventType := some "OrderCreated",
        aggregateId := none, version := none, occurredOn := none,
        data := none }).attempts = 1 ∧
    (RetryableHandle retryCfgDefault none (fun _ _ => Except.ok ()) freshUuid 0
      { eventId := some "", eventType := some "OrderCreated",
        aggregateId := none, version := none, occurredOn := none,
        data := none }).result = Except.ok () := by
  refine ⟨rfl, rfl, rfl⟩

/-- C8 (amended): for every raw message whose `eventId` field is
    present, *non-empty*, and rejected by the UUID regex of
    `EventId.validate`, `RetryableMessageHandler.handle` throws
    `Invalid EventId format` during conversion, before
    `executeWithRetry` is entered: the wrapped operation runs zero
    times, no wait occurs, and no dead-letter call is made. -/
theorem c8_invalid_eventId_rejected (cfg : RetryConfig)
    (svc : Option DLQService) (base : Event → Nat → Except String Unit)
    (freshId : String) (now : Nat) (m : RawMessage) (s : String)
    (hid : m.eventId = some s) (hne : s ≠ "")
    (hbad : uuidRegexTest s = false) :
    RetryableHandle cfg svc base freshId now m =
      { conversion := Except.error "Invalid EventId format"
        attempts := 0
        waits := []
        dlqCalls := []
        result := Except.error (some "Invalid EventId format") } := by
  have hconv : convertToDomainEvent freshId now m =
      Except.error "Invalid EventId format" := by
    unfold convertToDomainEvent EventId.create
    rw [hid]
    simp [hne, hbad]
  unfold RetryableHandle
  rw [hconv]

theorem c8_invalid_eventId_rejected_witness :
    RetryableHandle retryCfgDefault (some okDlq) (fun _ _ => Except.ok ())
      freshUuid 0
      { eventId := some "not-a-uuid", eventType := some "OrderCreated",
        aggregateId := none, version := none, occurredOn := none,
        data := none } =
      { conversion := Except.error "Invalid EventId format"
        attempts := 0
        waits := []
        dlqCalls := []
        result := Except.error (some "Invalid EventId format") } :=
  c8_invalid_eventId_rejected retryCfgDefault (some okDlq)
    (fun _ _ => Except.ok ()) freshUuid 0
    { eventId := some "not-a-uuid", eventType := some "OrderCreated",
      aggregateId := none, version := none, occurredOn := none,
      data := none } "not-a-uuid" rfl (by decide) (by decide)

end EventProcessing
